import Mathlib

/-!
Verification development for the neptune-core consensus core.

Shallow embedding of the Rust sources:
  - src/util_types/mutator_set/mutator_set_accumulator.rs
  - src/models/blockchain/transaction/transaction_kernel.rs
  - src/models/state/wallet/wallet_state.rs
  - src/models/state/wallet/rusty_wallet_database.rs
  - src/mine_loop.rs

Conventions.  The algebraic-hash library (twenty-first) is an external
collaborator: its hash functions, MMR peak bagging and membership-proof
batch updates are abstracted as parameters (structures of functions),
and theorems quantify over them.  A `Digest` is a list of field-element
values (5 limbs in the implementation); `BFieldElement` values are
natural numbers reduced modulo the Goldilocks prime where the source
reduces them.  Machine integers are modelled as `Nat` with explicit
`% 2 ^ 64` where wrap-around matters.  Fallible Rust code (functions
returning `Result`, plus `panic!`/`assert!`/`expect` aborts) is
modelled with `Except`.
-/

/-- The Goldilocks prime `p = 2^64 - 2^32 + 1`: `BFieldElement::new`
reduces its `u64` argument modulo this prime. -/
def goldilocksP : Nat := 2 ^ 64 - 2 ^ 32 + 1

/-- A hash digest: the canonical values of its `DIGEST_LENGTH = 5`
field elements. -/
def Digest : Type := List Nat

instance : DecidableEq Digest := by
  unfold Digest
  infer_instance

instance : Inhabited Digest := ⟨([] : List Nat)⟩

/-- `Digest::default()`: the all-zero digest. -/
def zeroDigest : Digest := List.replicate 5 0

namespace MutatorSetModel

/-! ## Mutator-set accumulator (src/util_types/mutator_set/mutator_set_accumulator.rs)

The MMR accumulator and the active Bloom window come from the
twenty-first crate; only the data needed by `hash` is modelled.  The
hash functions and `bag_peaks` are abstract parameters. -/

/-- An MMR accumulator: leaf count and current peaks (append-only). -/
structure MmrAccumulatorM where
  leafCount : Nat
  peaks : List Digest

/-- The active sliding-window Bloom filter: its bit chunk. -/
structure ActiveWindowM where
  bits : List Nat

/-- `MutatorSetKernel`: AOCL MMR, inactive-SWBF MMR, active window. -/
structure MutatorSetKernelM where
  aocl : MmrAccumulatorM
  swbfInactive : MmrAccumulatorM
  swbfActive : ActiveWindowM

/-- `MutatorSetAccumulator`: wraps a kernel. -/
structure MutatorSetAccumulatorM where
  kernel : MutatorSetKernelM

/-- The hash primitives used by `MutatorSetAccumulator::hash`, all
provided by the external twenty-first crate:
`H::hash_pair`, `Mmr::bag_peaks` and `H::hash` on the active window. -/
structure MsHasher where
  hashPair : Digest → Digest → Digest
  bagPeaks : MmrAccumulatorM → Digest
  hashActiveWindow : ActiveWindowM → Digest

/-- `MutatorSetAccumulator::hash` (mutator_set_accumulator.rs:76-85):
bag the AOCL peaks, bag the inactive-SWBF peaks, hash the active
window, then pair-hash `(aocl_bagged, pair(inactive_bagged, active))`. -/
def msaHash (h : MsHasher) (msa : MutatorSetAccumulatorM) : Digest :=
  let aoclMmrBagged := h.bagPeaks msa.kernel.aocl
  let inactiveSwbfBagged := h.bagPeaks msa.kernel.swbfInactive
  let activeSwbfBagged := h.hashActiveWindow msa.kernel.swbfActive
  h.hashPair aoclMmrBagged (h.hashPair inactiveSwbfBagged activeSwbfBagged)

/-- The spec's formula, written from the spec sentence
`H(H(aocl_peaks), H(H(swbf_inactive_peaks), H(swbf_active)))`, where
`H(peaks)` of an MMR is its peak bagging. -/
def msaHashSpec (h : MsHasher) (msa : MutatorSetAccumulatorM) : Digest :=
  h.hashPair
    (h.bagPeaks msa.kernel.aocl)
    (h.hashPair (h.bagPeaks msa.kernel.swbfInactive)
      (h.hashActiveWindow msa.kernel.swbfActive))

end MutatorSetModel

namespace TxKernel

/-! ## Transaction kernel MAST hash
(src/models/blockchain/transaction/transaction_kernel.rs) -/

/-- A removal record: absolute Bloom-filter indices (the AOCL
authentication path lives in the external crate and is irrelevant to
the hashed encoding, which is abstract here). -/
structure RemovalRecordM where
  absoluteIndices : List Nat
deriving DecidableEq

/-- An addition record: a canonical commitment digest. -/
structure AdditionRecordM where
  canonicalCommitment : Digest
deriving DecidableEq

/-- `TransactionKernel` (transaction_kernel.rs:26-40). Amounts are
non-negative 128-bit values, modelled as `Nat`. -/
structure TransactionKernelM where
  inputs : List RemovalRecordM
  outputs : List AdditionRecordM
  pubscriptHashesAndInputs : List (Digest × List Nat)
  fee : Nat
  coinbase : Option Nat
  timestamp : Nat
  mutatorSetHash : Digest

/-- The `BFieldCodec` encoders (derived in the source, external crate)
and the hash primitives used by `mast_hash`. -/
structure Encoder where
  hashPair : Digest → Digest → Digest
  hashVarlen : List Nat → Digest
  encInputs : List RemovalRecordM → List Nat
  encOutputs : List AdditionRecordM → List Nat
  encPubscripts : List (Digest × List Nat) → List Nat
  encAmount : Nat → List Nat
  encOptAmount : Option Nat → List Nat
  encBfe : Nat → List Nat
  encDigest : Digest → List Nat

/-- `TransactionKernel::mast_sequences` (transaction_kernel.rs:43-67):
the field-element encodings of the seven fields, in declaration order
of the returned vector. -/
def mastSequences (e : Encoder) (k : TransactionKernelM) : List (List Nat) :=
  [ e.encInputs k.inputs
  , e.encOutputs k.outputs
  , e.encPubscripts k.pubscriptHashesAndInputs
  , e.encAmount k.fee
  , e.encOptAmount k.coinbase
  , e.encBfe k.timestamp
  , e.encDigest k.mutatorSetHash ]

/-- The source's padding loop
`while sequences.len() & (sequences.len() - 1) != 0 { push(zero) }`,
with a fuel argument bounding the iteration count (the loop runs at
most once from the 7-element start state, so any fuel above 1 is
never exhausted). -/
def padStep (z : List Nat) : Nat → List (List Nat) → List (List Nat)
  | 0, l => l
  | n + 1, l =>
    if l.length &&& (l.length - 1) == 0 then l else padStep z n (l ++ [z])

/-- One level of the Merkle tree: hash adjacent pairs. -/
def merkleLevel (hashPair : Digest → Digest → Digest) :
    List Digest → List Digest
  | a :: b :: rest => hashPair a b :: merkleLevel hashPair rest
  | l => l

/-- Merkle root with a fuel argument (the level count is at most the
leaf count, so fuel `= leaves.length` is never exhausted). -/
def merkleRootAux (hashPair : Digest → Digest → Digest) :
    Nat → List Digest → Digest
  | 0, l => l.headD zeroDigest
  | n + 1, l =>
    if l.length ≤ 1 then l.headD zeroDigest
    else merkleRootAux hashPair n (merkleLevel hashPair l)

/-- `CpuParallel::from_digests(..).get_root()` (external crate): the
Merkle root of a power-of-two list of leaf digests. -/
def merkleRoot (hashPair : Digest → Digest → Digest)
    (leaves : List Digest) : Digest :=
  merkleRootAux hashPair leaves.length leaves

/-- `TransactionKernel::mast_hash` (transaction_kernel.rs:69-87):
pad the seven field sequences with `Digest::default().encode()` until
the count is a power of two, hash each sequence with `hash_varlen`,
and return the Merkle root. -/
def mastHash (e : Encoder) (k : TransactionKernelM) : Digest :=
  let sequences := padStep (e.encDigest zeroDigest) 16 (mastSequences e k)
  merkleRoot e.hashPair (sequences.map e.hashVarlen)

end TxKernel

namespace MineLoop

/-! ## Mining loop (src/mine_loop.rs)

`BlockHeader`, `Block::difficulty_control`,
`Block::difficulty_to_digest_threshold`, the MMR append and the block
hash functions live outside src; they are abstracted as parameters.
Proof-of-work line, family and difficulty are `U32s<5>` values
(non-negative 160-bit integers), modelled as `Nat`; the values reached
in practice are far below the overflow bound. -/

/-- `BlockHeader` as used by `make_block_template` and `mine_block`:
version, height, previous-block MAST digest, millisecond timestamp
(a `BFieldElement`, stored as its canonical value `< goldilocksP`),
3-field nonce, max block size, PoW line, PoW family, difficulty. -/
structure BlockHeaderM where
  version : Nat
  height : Nat
  prevBlockDigest : Digest
  timestamp : Nat
  nonce : Nat × Nat × Nat
  maxBlockSize : Nat
  proofOfWorkLine : Nat
  proofOfWorkFamily : Nat
  difficulty : Nat
deriving DecidableEq

/-- The transaction placed in the template: only its kernel is read. -/
structure TransactionM where
  kernel : TxKernel.TransactionKernelM

/-- `BlockBody` (newer block model): transaction, post-application
mutator-set accumulator, lock-free MMR, block MMR, uncle list
(opaque digests suffice for the claims). -/
structure BlockBodyM where
  transaction : TransactionM
  mutatorSetAccumulator : MutatorSetModel.MutatorSetAccumulatorM
  lockFreeMmrAccumulator : MutatorSetModel.MmrAccumulatorM
  blockMmrAccumulator : MutatorSetModel.MmrAccumulatorM
  uncleBlocks : List Digest

/-- `BlockKernel`: header + body. -/
structure BlockKernelM where
  header : BlockHeaderM
  body : BlockBodyM

/-- `Block`: kernel (the cached digest is recomputed by the abstract
`blockHash` below and is not stored). -/
structure BlockM where
  kernel : BlockKernelM

/-- External collaborators of `make_block_template`: the system clock,
`MutatorSetUpdate::apply` (fallible), `MmrAccumulator::append`,
`Block::hash`, `BlockKernel::mast_hash` and
`Block::difficulty_control`. -/
structure TemplateEnv where
  nowMillis : Nat
  applyMsUpdate : MutatorSetModel.MutatorSetAccumulatorM →
    List TxKernel.RemovalRecordM → List TxKernel.AdditionRecordM →
    Option MutatorSetModel.MutatorSetAccumulatorM
  mmrAppend : MutatorSetModel.MmrAccumulatorM → Digest →
    MutatorSetModel.MmrAccumulatorM
  blockHash : BlockKernelM → Digest
  kernelMastHash : BlockKernelM → Digest
  difficultyControl : BlockM → Nat → Nat

/-- `make_block_template` (mine_loop.rs:47-101).  Returns `none` when
`MutatorSetUpdate::apply` fails (the source `expect`s, i.e. panics).
`SystemTime::now().as_millis() as u64` is the clock reading truncated
to 64 bits; `BFieldElement::new` reduces the timestamp modulo the
Goldilocks prime. -/
def makeBlockTemplate (env : TemplateEnv) (previousBlock : BlockM)
    (transaction : TransactionM) : Option (BlockHeaderM × BlockBodyM) :=
  let additions := transaction.kernel.outputs
  let removals := transaction.kernel.inputs
  match env.applyMsUpdate previousBlock.kernel.body.mutatorSetAccumulator
      removals additions with
  | none => none
  | some nextMutatorSetAccumulator =>
    let blockMmra := env.mmrAppend previousBlock.kernel.body.blockMmrAccumulator
      (env.blockHash previousBlock.kernel)
    let blockBody : BlockBodyM :=
      { transaction := transaction
        mutatorSetAccumulator := nextMutatorSetAccumulator
        lockFreeMmrAccumulator := { leafCount := 0, peaks := [] }
        blockMmrAccumulator := blockMmra
        uncleBlocks := [] }
    let newPowLine := previousBlock.kernel.header.proofOfWorkFamily +
      previousBlock.kernel.header.difficulty
    let nextBlockHeight := previousBlock.kernel.header.height + 1
    let nowTruncated := env.nowMillis % 2 ^ 64
    let blockTimestamp :=
      if nowTruncated < previousBlock.kernel.header.timestamp then
        previousBlock.kernel.header.timestamp + 1
      else nowTruncated
    let difficulty := env.difficultyControl previousBlock blockTimestamp
    let blockHeader : BlockHeaderM :=
      { version := 0
        height := nextBlockHeight
        prevBlockDigest := env.kernelMastHash previousBlock.kernel
        timestamp := blockTimestamp % goldilocksP
        nonce := (0, 0, 0)
        maxBlockSize := 1000000
        proofOfWorkLine := newPowLine
        proofOfWorkFamily := newPowLine
        difficulty := difficulty }
    some (blockHeader, blockBody)

/-- The collaborators of the `mine_block` nonce search.  Digests are
compared in their total order, so `hashHeader` returns the rank of
`Hash::hash(&header)` and `threshold` the rank of
`Block::difficulty_to_digest_threshold(difficulty)`.  `canceled t`
models `sender.is_canceled()` (the oneshot receiver has been dropped)
at loop step `t`; once the receiver is dropped it stays dropped, which
theorems state as a monotonicity hypothesis.  `syncing t` models the
`s.net.syncing` read, `nonces t` the thread-safe RNG stream. -/
structure MineEnv where
  hashHeader : BlockHeaderM → Nat
  threshold : Nat
  canceled : Nat → Bool
  syncing : Nat → Bool
  nonces : Nat → Nat × Nat × Nat

/-- Outcome of one `mine_block` call: either a block was sent on the
oneshot channel and received (`delivered`), or the worker returned
without delivering (cancellation checkpoint, syncing checkpoint, or
`sender.send` failing because the receiver was dropped). -/
inductive MineOutcome where
  | delivered (hdr : BlockHeaderM)
  | exitedNoSend
deriving DecidableEq

/-- The `mine_block` nonce-search loop (mine_loop.rs:126-170), with a
fuel argument for the unbounded search (`none` = fuel exhausted, i.e.
the loop was still running).  Per the source, one iteration is:
check `Hash::hash(&block_header) >= threshold` (exit the loop when it
fails); optionally sleep; return if `sender.is_canceled()`; return if
`counter % 100 == 0` and the node is syncing, else increment the
counter; resample the nonce.  After the loop the worker sends the
block; `oneshot::Sender::send` fails (and the block is not delivered)
when the receiver has been dropped. -/
def mineBlockLoop (env : MineEnv) :
    Nat → Nat → Nat → BlockHeaderM → Option MineOutcome
  | 0, _, _, _ => none
  | fuel + 1, t, counter, hdr =>
    if env.threshold ≤ env.hashHeader hdr then
      if env.canceled t then some .exitedNoSend
      else if counter % 100 == 0 && env.syncing t then some .exitedNoSend
      else mineBlockLoop env fuel (t + 1) (counter + 1)
        { hdr with nonce := env.nonces t }
    else
      some (if env.canceled t then .exitedNoSend else .delivered hdr)

/-- `mine_block` proper: start the loop with counter 0 at step 0. -/
def mineBlock (env : MineEnv) (hdr : BlockHeaderM) (fuel : Nat) :
    Option MineOutcome :=
  mineBlockLoop env fuel 0 0 hdr

/-- Concrete mining environment in which every header
hashes exactly to the threshold value. -/
def envC4 : MineEnv :=
  { hashHeader := fun _ => 5
    threshold := 5
    canceled := fun _ => false
    syncing := fun _ => false
    nonces := fun _ => (0, 0, 0) }

/-- A concrete header for the concrete mining runs. -/
def hdrC4 : BlockHeaderM :=
  { version := 0, height := 1, prevBlockDigest := zeroDigest, timestamp := 0
    nonce := (0, 0, 0), maxBlockSize := 1000000, proofOfWorkLine := 0
    proofOfWorkFamily := 0, difficulty := 0 }

/-- Concrete environment for the template-construction theorems: all collaborators
are trivial total functions. -/
def envT : TemplateEnv :=
  { nowMillis := 100
    applyMsUpdate := fun msa _ _ => some msa
    mmrAppend := fun m _ => m
    blockHash := fun _ => zeroDigest
    kernelMastHash := fun _ => zeroDigest
    difficultyControl := fun _ _ => 0 }

/-- A concrete parent block whose PoW line (0) differs from its PoW
family (1). -/
def prevT : BlockM :=
  { kernel :=
    { header :=
      { version := 0, height := 7, prevBlockDigest := zeroDigest, timestamp := 50
        nonce := (0, 0, 0), maxBlockSize := 1000000, proofOfWorkLine := 0
        proofOfWorkFamily := 1, difficulty := 0 }
      body :=
      { transaction := { kernel :=
          { inputs := [], outputs := [], pubscriptHashesAndInputs := []
            fee := 0, coinbase := none, timestamp := 0
            mutatorSetHash := zeroDigest } }
        mutatorSetAccumulator := { kernel :=
          { aocl := { leafCount := 0, peaks := [] }
            swbfInactive := { leafCount := 0, peaks := [] }
            swbfActive := { bits := [] } } }
        lockFreeMmrAccumulator := { leafCount := 0, peaks := [] }
        blockMmrAccumulator := { leafCount := 0, peaks := [] }
        uncleBlocks := [] } } }

/-- An empty transaction for the concrete template runs. -/
def txT : TransactionM :=
  { kernel :=
    { inputs := [], outputs := [], pubscriptHashesAndInputs := []
      fee := 0, coinbase := none, timestamp := 0
      mutatorSetHash := zeroDigest } }

/-- The header that `make_block_template` produces from `envT`,
`prevT` and `txT` (evaluated by hand; equality is checked by `rfl` in
the theorems below). -/
def hdrTout : BlockHeaderM :=
  { version := 0, height := 8, prevBlockDigest := zeroDigest, timestamp := 100
    nonce := (0, 0, 0), maxBlockSize := 1000000, proofOfWorkLine := 1
    proofOfWorkFamily := 1, difficulty := 0 }

/-- The body that `make_block_template` produces from `envT`, `prevT`
and `txT`. -/
def bodyTout : BlockBodyM :=
  { transaction := txT
    mutatorSetAccumulator := prevT.kernel.body.mutatorSetAccumulator
    lockFreeMmrAccumulator := { leafCount := 0, peaks := [] }
    blockMmrAccumulator := { leafCount := 0, peaks := [] }
    uncleBlocks := [] }

/-- Concrete mining environment in which every header hashes strictly
below the threshold. -/
def envBelow : MineEnv :=
  { hashHeader := fun _ => 3
    threshold := 5
    canceled := fun _ => false
    syncing := fun _ => false
    nonces := fun _ => (0, 0, 0) }

/-- Concrete mining environment whose oneshot receiver is dropped from
the start. -/
def envCancel : MineEnv :=
  { hashHeader := fun _ => 5
    threshold := 5
    canceled := fun _ => true
    syncing := fun _ => false
    nonces := fun _ => (0, 0, 0) }

/-- `envT` with the system clock reading exactly the Goldilocks prime
`p` milliseconds — a valid `u64` value (`p < 2^64`), which
`BFieldElement::new` reduces to 0. -/
def envTWrap : TemplateEnv := { envT with nowMillis := goldilocksP }

end MineLoop

namespace WalletV

/-! ## Wallet state (src/models/state/wallet/wallet_state.rs,
src/models/state/wallet/rusty_wallet_database.rs)

wallet_state.rs predates the other sources: its blocks carry
`previous_mutator_set_accumulator`, `next_mutator_set_accumulator` and
a `mutator_set_update`, its transactions expose input/output UTXOs,
and ownership is tested with `matches_pubkey`.  The mutator-set
accumulator state and all membership-proof arithmetic live in the
external mutator-set crate and are abstracted: `Msa` is an opaque
state and the crate's operations are parameters.  The crate's batch
update functions update each proof / removal record independently
(the batch form only shares lookups) and additionally return the
indices of changed proofs, which the wallet uses only for logging;
they are therefore modelled element-wise.  `panic!`, `assert!`,
`expect`/`unwrap` and out-of-bounds indexing abort the handler; they
are modelled as `WErr.panicked`, `bail!` as `WErr.bailed`. -/

/-- The opaque mutator-set accumulator state of the external crate. -/
abbrev Msa := Nat

/-- A UTXO as the wallet reads it: its amount, whether
`matches_pubkey(my_pub_key)` holds for the fixed wallet key, and a
tag standing for the remaining fields (lock script etc.). -/
structure UtxoM where
  amount : Nat
  matchesMe : Bool
  tag : Nat
deriving DecidableEq

/-- `MsMembershipProof`: AOCL leaf index and cached Bloom indices
(the auth path itself is never inspected by the wallet code). -/
structure MsMembershipProofM where
  leafIndex : Nat
  cachedIndices : Option (List Nat)
deriving DecidableEq

/-- Modelled from the spec: `MonitoredUtxo` (monitored_utxo.rs is not
among the sources).  The UTXO, the block-digest → membership-proof
history (newest first), the retention bound, and the optional
`spent_in_block` / `confirmed_in_block` markers `(digest, timestamp)`. -/
structure MonitoredUtxoM where
  utxo : UtxoM
  blockhashToMembershipProof : List (Digest × MsMembershipProofM)
  numberOfMpsPerUtxo : Nat
  spentInBlock : Option (Digest × Nat)
  confirmedInBlock : Option (Digest × Nat)
deriving DecidableEq

/-- Modelled from the spec: `MonitoredUtxo::new` starts with no proof
history and neither marker set. -/
def MonitoredUtxoM.new (utxo : UtxoM) (numberOfMpsPerUtxo : Nat) :
    MonitoredUtxoM :=
  { utxo := utxo
    blockhashToMembershipProof := []
    numberOfMpsPerUtxo := numberOfMpsPerUtxo
    spentInBlock := none
    confirmedInBlock := none }

/-- Modelled from the spec: look up the membership proof stored for a
block digest. -/
def MonitoredUtxoM.getMembershipProofForBlock (m : MonitoredUtxoM)
    (d : Digest) : Option MsMembershipProofM :=
  (m.blockhashToMembershipProof.find? (fun e => decide (e.1 = d))).map
    (fun e => e.2)

/-- Modelled from the spec: the most recently stored proof entry. -/
def MonitoredUtxoM.getLatestMembershipProofEntry (m : MonitoredUtxoM) :
    Option (Digest × MsMembershipProofM) :=
  m.blockhashToMembershipProof.head?

/-- Modelled from the spec: record the proof for the new tip,
evicting entries beyond the retention bound. -/
def MonitoredUtxoM.addMembershipProofForTip (m : MonitoredUtxoM)
    (d : Digest) (mp : MsMembershipProofM) : MonitoredUtxoM :=
  { m with blockhashToMembershipProof :=
      ((d, mp) :: m.blockhashToMembershipProof).take m.numberOfMpsPerUtxo }

/-- Modelled from the spec: a monitored UTXO is synced to a block when
it stores a proof for that block's digest. -/
def MonitoredUtxoM.isSyncedTo (m : MonitoredUtxoM) (d : Digest) : Bool :=
  (m.getMembershipProofForBlock d).isSome

/-- A `BalanceUpdate` entry as pushed by the wallet handler
(wallet_state.rs:152-168); `true` stands for `Sign::NonNegative`. -/
structure BalanceUpdateM where
  block : Digest
  timestamp : Nat
  amount : Nat
  nonNegative : Bool
deriving DecidableEq

/-- `RustyWalletDatabase` (rusty_wallet_database.rs): the
monitored-UTXO vector, sync label and output counter, plus the
balance-update vector referenced from wallet_state.rs.  `persisted`
models `StorageWriter::persist`: every write clears it, `persist`
sets it. -/
structure WalletDb where
  monitoredUtxos : List MonitoredUtxoM
  balanceUpdates : List BalanceUpdateM
  syncLabel : Digest
  counter : Nat
  persisted : Bool
deriving DecidableEq

/-- `RustyWalletDatabase::get_sync_label`. -/
def getSyncLabel (db : WalletDb) : Digest := db.syncLabel

/-- `RustyWalletDatabase::set_sync_label`. -/
def setSyncLabel (db : WalletDb) (d : Digest) : WalletDb :=
  { db with syncLabel := d, persisted := false }

/-- `RustyWalletDatabase::get_counter`. -/
def getCounter (db : WalletDb) : Nat := db.counter

/-- `RustyWalletDatabase::set_counter` (the counter is a `u64`). -/
def setCounter (db : WalletDb) (c : Nat) : WalletDb :=
  { db with counter := c % 2 ^ 64, persisted := false }

/-- `StorageWriter::persist`. -/
def persist (db : WalletDb) : WalletDb := { db with persisted := true }

/-- A transaction input as the wallet reads it
(`transaction.inputs[i].utxo`). -/
structure DevNetInputM where
  utxo : UtxoM
deriving DecidableEq

/-- The wallet-era transaction: inputs with their UTXOs, outputs
paired with their commitment randomness. -/
structure TransactionWM where
  inputs : List DevNetInputM
  outputs : List (UtxoM × Digest)
deriving DecidableEq

/-- `MutatorSetUpdate`: the removal and addition records the block
applies. -/
structure MutatorSetUpdateM where
  removals : List TxKernel.RemovalRecordM
  additions : List TxKernel.AdditionRecordM
deriving DecidableEq

/-- The wallet-era block body. -/
structure BlockBodyW where
  transaction : TransactionWM
  previousMutatorSetAccumulator : Msa
  nextMutatorSetAccumulator : Msa
  mutatorSetUpdate : MutatorSetUpdateM
deriving DecidableEq

/-- The wallet-era block header fields the handler reads. -/
structure BlockHeaderW where
  prevBlockDigest : Digest
  timestamp : Nat
  height : Nat
deriving DecidableEq

/-- The wallet-era block: cached hash, header, body. -/
structure BlockW where
  hash : Digest
  header : BlockHeaderW
  body : BlockBodyW
deriving DecidableEq

/-- The external collaborators of the wallet handler: `Hash::hash` on
UTXOs, `Hash::hash_pair`, and the mutator-set crate's accumulator and
membership-proof operations.  `updMpFromAddition mp ownItem msa ar`
is `MsMembershipProof::batch_update_from_addition` restricted to one
proof; likewise the other three update functions; `none` is their
`Err` case. -/
structure WalletEnv where
  hashPair : Digest → Digest → Digest
  hashUtxo : UtxoM → Digest
  msaAdd : Msa → TxKernel.AdditionRecordM → Msa
  msaRemove : Msa → TxKernel.RemovalRecordM → Msa
  msaHash : Msa → Digest
  msaVerify : Msa → Digest → MsMembershipProofM → Bool
  msaProve : Msa → Digest → Digest → MsMembershipProofM
  updMpFromAddition : MsMembershipProofM → Digest → Msa →
    TxKernel.AdditionRecordM → Option MsMembershipProofM
  updRrFromAddition : TxKernel.RemovalRecordM → Msa →
    Option TxKernel.RemovalRecordM
  updMpFromRemove : MsMembershipProofM → TxKernel.RemovalRecordM →
    Option MsMembershipProofM
  updRrFromRemove : TxKernel.RemovalRecordM → TxKernel.RemovalRecordM →
    Option TxKernel.RemovalRecordM

/-- Failure modes of the wallet handler: `bailed` for `bail!` (an
`Err` return), `panicked` for `panic!` / `assert!` / `expect` /
out-of-bounds aborts. -/
inductive WErr where
  | bailed (msg : String)
  | panicked (msg : String)
deriving DecidableEq

/-- Modelled from the spec: `Transaction::get_own_input_utxos` — the
input UTXOs owned by the wallet's public key. -/
def getOwnInputUtxos (tx : TransactionWM) : List UtxoM :=
  (tx.inputs.filter (fun i => i.utxo.matchesMe)).map (fun i => i.utxo)

/-- Modelled from the spec:
`Transaction::get_own_output_utxos_and_comrands` — the output UTXOs
owned by the wallet's key, with their commitment randomness. -/
def getOwnOutputUtxosAndComrands (tx : TransactionWM) :
    List (UtxoM × Digest) :=
  tx.outputs.filter (fun p => p.1.matchesMe)

/-- `StrongUtxoKey` (wallet_state.rs:52-64): utxo digest plus AOCL
leaf index. -/
structure StrongUtxoKey where
  utxoDigest : Digest
  aoclIndex : Nat
deriving DecidableEq

/-- The handler's proof map
`valid_membership_proofs_and_own_utxo_count`, in insertion order
(the source uses a `HashMap`; its iteration order does not affect the
claims). -/
abbrev MpMap := List (StrongUtxoKey × (MsMembershipProofM × Nat))

/-- The balance-update pushes (wallet_state.rs:151-168): one
non-negative entry per own input and one negative entry per own
output. -/
def recordBalanceUpdates (block : BlockW) (db : WalletDb) : WalletDb :=
  { db with
    balanceUpdates := db.balanceUpdates ++
      (getOwnInputUtxos block.body.transaction).map (fun u =>
        { block := block.hash, timestamp := block.header.timestamp
          amount := u.amount, nonNegative := true }) ++
      (getOwnOutputUtxosAndComrands block.body.transaction).map (fun p =>
        { block := block.hash, timestamp := block.header.timestamp
          amount := p.1.amount, nonNegative := false })
    persisted := false }

/-- The proof-collection loop (wallet_state.rs:172-196): every
monitored UTXO holding a proof for the parent digest is inserted into
the map under its `StrongUtxoKey`; a duplicate key trips the
`assert!`. -/
def collectValidMps (env : WalletEnv) (prevDigest : Digest) :
    List MonitoredUtxoM → Nat → MpMap → Except WErr MpMap
  | [], _, acc => .ok acc
  | m :: rest, i, acc =>
    match m.getMembershipProofForBlock prevDigest with
    | some mp =>
      let key : StrongUtxoKey :=
        { utxoDigest := env.hashUtxo m.utxo, aoclIndex := mp.leafIndex }
      if acc.any (fun kv => decide (kv.1 = key)) then
        .error (.panicked "Strong key must be unique in wallet DB")
      else collectValidMps env prevDigest rest (i + 1) (acc ++ [(key, (mp, i))])
    | none => collectValidMps env prevDigest rest (i + 1) acc

/-- `itertools::zip_eq`: zip two lists, panicking (`none`) on a
length mismatch. -/
def zipEq {α β : Type} : List α → List β → Option (List (α × β))
  | [], [] => some []
  | a :: moreA, b :: moreB => (zipEq moreA moreB).map (fun l => (a, b) :: l)
  | _, _ => none

/-- Update every proof in the map from an addition record, each proof
paired with its key's UTXO digest (the `items` argument of the batch
call). -/
def updMapFromAddition (env : WalletEnv) (msa : Msa)
    (ar : TxKernel.AdditionRecordM) : MpMap → Option MpMap
  | [] => some []
  | (key, (mp, idx)) :: rest =>
    match env.updMpFromAddition mp key.utxoDigest msa ar with
    | none => none
    | some mp2 =>
      (updMapFromAddition env msa ar rest).map (fun r => (key, (mp2, idx)) :: r)

/-- Update every proof in the map from a removal record. -/
def updMapFromRemove (env : WalletEnv) (rr : TxKernel.RemovalRecordM) :
    MpMap → Option MpMap
  | [] => some []
  | (key, (mp, idx)) :: rest =>
    match env.updMpFromRemove mp rr with
    | none => none
    | some mp2 =>
      (updMapFromRemove env rr rest).map (fun r => (key, (mp2, idx)) :: r)

/-- Update every pending removal record from an addition. -/
def updRrsFromAddition (env : WalletEnv) (msa : Msa) :
    List TxKernel.RemovalRecordM → Option (List TxKernel.RemovalRecordM)
  | [] => some []
  | rr :: rest =>
    match env.updRrFromAddition rr msa with
    | none => none
    | some rr2 => (updRrsFromAddition env msa rest).map (fun r => rr2 :: r)

/-- Update every pending removal record from an applied removal. -/
def updRrsFromRemove (env : WalletEnv) (applied : TxKernel.RemovalRecordM) :
    List TxKernel.RemovalRecordM → Option (List TxKernel.RemovalRecordM)
  | [] => some []
  | rr :: rest =>
    match env.updRrFromRemove rr applied with
    | none => none
    | some rr2 => (updRrsFromRemove env applied rest).map (fun r => rr2 :: r)

/-- `HashMap::insert`: replace the value under the key when present,
else add the binding. -/
def mapInsert (m : MpMap) (key : StrongUtxoKey)
    (v : MsMembershipProofM × Nat) : MpMap :=
  if m.any (fun kv => decide (kv.1 = key)) then
    m.map (fun kv => if kv.1 = key then (key, v) else kv)
  else m ++ [(key, v)]

/-- The addition loop (wallet_state.rs:208-282): for each
`(addition_record, (utxo, commitment_randomness))` pair, batch-update
the collected proofs (bail on failure), batch-update the pending
removal records (`expect`, so panic on failure), and when the output
is ours, prove it against the current accumulator, insert the proof
into the map under the new UTXO's index, and push a monitored UTXO
whose `confirmed_in_block` is this block; finally add the record to
the accumulator. -/
def additionLoop (env : WalletEnv) (nMps : Nat) (block : BlockW) :
    List (TxKernel.AdditionRecordM × (UtxoM × Digest)) →
    MpMap → List TxKernel.RemovalRecordM → Msa → WalletDb →
    Except WErr (MpMap × List TxKernel.RemovalRecordM × Msa × WalletDb)
  | [], mpMap, rrs, msa, db => .ok (mpMap, rrs, msa, db)
  | (ar, (utxo, comrand)) :: rest, mpMap, rrs, msa, db =>
    match updMapFromAddition env msa ar mpMap with
    | none => .error (.bailed "Failed to update membership proofs with addition record")
    | some mpMap2 =>
      match updRrsFromAddition env msa rrs with
      | none => .error (.panicked "MS removal record update from add must succeed in wallet handler")
      | some rrs2 =>
        if utxo.matchesMe then
          let utxoDigest := env.hashUtxo utxo
          let newMp := env.msaProve msa utxoDigest comrand
          let key : StrongUtxoKey :=
            { utxoDigest := utxoDigest, aoclIndex := newMp.leafIndex }
          let mutxo :=
            { MonitoredUtxoM.new utxo nMps with
              confirmedInBlock := some (block.hash, block.header.timestamp) }
          additionLoop env nMps block rest
            (mapInsert mpMap2 key (newMp, db.monitoredUtxos.length)) rrs2
            (env.msaAdd msa ar)
            { db with
              monitoredUtxos := db.monitoredUtxos ++ [mutxo]
              persisted := false }
        else
          additionLoop env nMps block rest mpMap2 rrs2 (env.msaAdd msa ar) db

/-- The sanity `assert_eq!` (wallet_state.rs:285-298): the number of
monitored UTXOs that are synced to the parent or have an empty proof
history must equal the map size. -/
def sanityCheckCount (prevDigest : Digest) (db : WalletDb) (mpMap : MpMap) :
    Except WErr Unit :=
  let cnt := (db.monitoredUtxos.filter (fun m =>
    m.isSyncedTo prevDigest || m.blockhashToMembershipProof.isEmpty)).length
  if cnt = mpMap.length then .ok ()
  else .error (.panicked "Monitored UTXO count must match number of managed membership proofs")

/-- Sorting used by the disambiguation branch (`sort_unstable` on
absolute index vectors). -/
def sortNat (l : List Nat) : List Nat := l.mergeSort (fun a b => a ≤ b)

/-- Set `spent_in_block` on the monitored UTXO at index `j`. -/
def markSpentAt (block : BlockW) (db : WalletDb) (j : Nat) : WalletDb :=
  match db.monitoredUtxos.get? j with
  | none => db
  | some m =>
    { db with
      monitoredUtxos := db.monitoredUtxos.set j
        { m with spentInBlock := some (block.hash, block.header.timestamp) }
      persisted := false }

/-- The multi-match disambiguation (wallet_state.rs:358-400): walk the
matching indices; a candidate without a stored proof entry or without
cached indices panics; the first candidate whose sorted cached indices
equal the removal record's sorted indices is marked spent. -/
def disambiguate (block : BlockW) (rr : TxKernel.RemovalRecordM) :
    List Nat → WalletDb → Except WErr WalletDb
  | [], db => .ok db
  | j :: rest, db =>
    match db.monitoredUtxos.get? j with
    | none => .error (.panicked "index out of bounds")
    | some m =>
      match m.getLatestMembershipProofEntry with
      | none => .error (.panicked "Unable to mark monitored UTXO as spent, as I do not know which one to mark")
      | some entry =>
        match entry.2.cachedIndices with
        | none => .error (.panicked "Unable to mark monitored UTXO as spent, as I do not know which one to mark")
        | some indices =>
          if sortNat indices = sortNat rr.absoluteIndices then
            .ok (markSpentAt block db j)
          else disambiguate block rr rest db

/-- The own-input marking (wallet_state.rs:328-401): when the spent
input is ours, find the monitored UTXOs with the same UTXO hash; none
panics, exactly one is marked spent, several are disambiguated by
cached Bloom indices. -/
def markOwnSpent (env : WalletEnv) (block : BlockW)
    (rr : TxKernel.RemovalRecordM) (inputUtxo : UtxoM) (db : WalletDb) :
    Except WErr WalletDb :=
  if inputUtxo.matchesMe then
    let inputUtxoDigest := env.hashUtxo inputUtxo
    let matching := (List.range db.monitoredUtxos.length).filter (fun j =>
      match db.monitoredUtxos.get? j with
      | some m => decide (env.hashUtxo m.utxo = inputUtxoDigest)
      | none => false)
    match matching with
    | [] => .error (.panicked "Discovered own input UTXO in block that did not match a monitored UTXO")
    | [j] => .ok (markSpentAt block db j)
    | _ => disambiguate block rr matching db
  else .ok db

/-- The removal loop (wallet_state.rs:306-406).  The source reverses
the record vector and pops from its end, i.e. processes the records
in their original order, keeping the not-yet-applied tail updated
in place (so its length never changes); the loop here carries the
tail directly and a fuel argument equal to the initial record count,
whose exhaustion (unreachable for length-preserving updates) is a
panic.  `i` indexes `transaction.inputs` in step with the records. -/
def removalLoop (env : WalletEnv) (block : BlockW) :
    Nat → Nat → List TxKernel.RemovalRecordM → MpMap → Msa → WalletDb →
    Except WErr (MpMap × Msa × WalletDb)
  | _, _, [], mpMap, msa, db => .ok (mpMap, msa, db)
  | 0, _, _ :: _, _, _, _ => .error (.panicked "removal-loop fuel exhausted")
  | fuel + 1, i, rr :: rest, mpMap, msa, db =>
    match updMapFromRemove env rr mpMap with
    | none => .error (.bailed "Failed to update membership proofs with removal record")
    | some mpMap2 =>
      match updRrsFromRemove env rr rest with
      | none => .error (.panicked "MS removal record update from remove must succeed in wallet handler")
      | some rest2 =>
        match block.body.transaction.inputs.get? i with
        | none => .error (.panicked "index out of bounds")
        | some inp =>
          match markOwnSpent env block rr inp.utxo db with
          | .error e => .error e
          | .ok db2 =>
            removalLoop env block fuel (i + 1) rest2 mpMap2
              (env.msaRemove msa rr) db2

/-- The final accumulator `assert_eq!` (wallet_state.rs:409-413). -/
def finalMsaCheck (env : WalletEnv) (block : BlockW) (msa : Msa) :
    Except WErr Unit :=
  if env.msaHash block.body.nextMutatorSetAccumulator = env.msaHash msa then
    .ok ()
  else .error (.panicked "Mutator set in wallet-handler must agree with that from applied block")

/-- The write-back loop (wallet_state.rs:433-458): store each advanced
proof under the new block's digest in its monitored UTXO, asserting
that an unspent UTXO's proof still verifies. -/
def writeBackLoop (env : WalletEnv) (block : BlockW) (msa : Msa) :
    MpMap → WalletDb → Except WErr WalletDb
  | [], db => .ok db
  | (key, (mp, idx)) :: rest, db =>
    match db.monitoredUtxos.get? idx with
    | none => .error (.panicked "index out of bounds")
    | some m =>
      let m2 := m.addMembershipProofForTip block.hash mp
      if m2.spentInBlock.isSome || env.msaVerify msa key.utxoDigest mp then
        writeBackLoop env block msa rest
          { db with
            monitoredUtxos := db.monitoredUtxos.set idx m2
            persisted := false }
      else .error (.panicked "membership proof of unspent UTXO must verify")

/-- The body of `update_wallet_state_with_new_block` after the early
return, up to (but excluding) the final `set_sync_label` / `persist`. -/
def updateWalletCore (env : WalletEnv) (nMps : Nat) (block : BlockW)
    (db : WalletDb) : Except WErr WalletDb :=
  let db1 := recordBalanceUpdates block db
  match collectValidMps env block.header.prevBlockDigest db1.monitoredUtxos 0 [] with
  | .error e => .error e
  | .ok mpMap =>
    match zipEq block.body.mutatorSetUpdate.additions
        block.body.transaction.outputs with
    | none => .error (.panicked "zip_eq: length mismatch")
    | some zipped =>
      match additionLoop env nMps block zipped mpMap
          block.body.mutatorSetUpdate.removals
          block.body.previousMutatorSetAccumulator db1 with
      | .error e => .error e
      | .ok (mpMap2, rrs, msa, db2) =>
        match sanityCheckCount block.header.prevBlockDigest db2 mpMap2 with
        | .error e => .error e
        | .ok _ =>
          match removalLoop env block rrs.length 0 rrs mpMap2 msa db2 with
          | .error e => .error e
          | .ok (mpMap3, msa2, db3) =>
            match finalMsaCheck env block msa2 with
            | .error e => .error e
            | .ok _ => writeBackLoop env block msa2 mpMap3 db3

/-- `update_wallet_state_with_new_block` (wallet_state.rs:123-464):
return immediately when the block has no own inputs, no own outputs
and the wallet monitors nothing; otherwise run the collection,
addition, removal and write-back phases and finish with
`set_sync_label(block.hash())` followed by `persist()`. -/
def updateWalletStateWithNewBlock (env : WalletEnv) (nMps : Nat)
    (block : BlockW) (db : WalletDb) : Except WErr WalletDb :=
  let ownInputUtxos := getOwnInputUtxos block.body.transaction
  let ownOutputs := getOwnOutputUtxosAndComrands block.body.transaction
  if ownInputUtxos.isEmpty && ownOutputs.isEmpty && db.monitoredUtxos.isEmpty then
    .ok db
  else
    match updateWalletCore env nMps block db with
    | .error e => .error e
    | .ok dbF => .ok (persist (setSyncLabel dbF block.hash))

/-- `WalletStatusElement(aocl_leaf_index, utxo)`. -/
structure WalletStatusElementM where
  aoclLeafIndex : Nat
  utxo : UtxoM
deriving DecidableEq

/-- `WalletStatus`: the four classified UTXO lists with their summed
amounts. -/
structure WalletStatusM where
  syncedUnspentAmount : Nat
  syncedUnspent : List (WalletStatusElementM × MsMembershipProofM)
  unsyncedUnspentAmount : Nat
  unsyncedUnspent : List WalletStatusElementM
  syncedSpentAmount : Nat
  syncedSpent : List WalletStatusElementM
  unsyncedSpentAmount : Nat
  unsyncedSpent : List WalletStatusElementM
deriving DecidableEq

/-- The classification loop of `get_wallet_status_from_lock`
(wallet_state.rs:497-540), returning the four lists
`(synced_unspent, unsynced_unspent, synced_spent, unsynced_spent)` in
insertion order.  The debug print unwraps the latest proof entry, and
the unsynced branch unwraps the first history entry, so a monitored
UTXO with an empty proof history panics. -/
def walletStatusLists (blockHash : Digest) :
    List MonitoredUtxoM →
    Except WErr (List (WalletStatusElementM × MsMembershipProofM) ×
      List WalletStatusElementM × List WalletStatusElementM ×
      List WalletStatusElementM)
  | [] => .ok ([], [], [], [])
  | m :: rest =>
    match m.getLatestMembershipProofEntry with
    | none => .error (.panicked "unwrap on empty membership-proof history")
    | some _ =>
      match walletStatusLists blockHash rest with
      | .error e => .error e
      | .ok (su, uu, ss, us) =>
        let spent := m.spentInBlock.isSome
        match m.getMembershipProofForBlock blockHash with
        | some mp =>
          if spent then
            .ok (su, uu, { aoclLeafIndex := mp.leafIndex, utxo := m.utxo } :: ss, us)
          else
            .ok (({ aoclLeafIndex := mp.leafIndex, utxo := m.utxo }, mp) :: su, uu, ss, us)
        | none =>
          match m.blockhashToMembershipProof.head? with
          | none => .error (.panicked "unwrap on empty membership-proof history")
          | some anyEntry =>
            if spent then
              .ok (su, uu, ss, { aoclLeafIndex := anyEntry.2.leafIndex, utxo := m.utxo } :: us)
            else
              .ok (su, { aoclLeafIndex := anyEntry.2.leafIndex, utxo := m.utxo } :: uu, ss, us)

/-- Summed amount of a synced-unspent list. -/
def sumAmounts (l : List (WalletStatusElementM × MsMembershipProofM)) : Nat :=
  (l.map (fun e => e.1.utxo.amount)).sum

/-- Summed amount of an element list. -/
def sumAmountsE (l : List WalletStatusElementM) : Nat :=
  (l.map (fun e => e.utxo.amount)).sum

/-- `get_wallet_status_from_lock` (wallet_state.rs:497-551). -/
def getWalletStatusFromLock (db : WalletDb) (block : BlockW) :
    Except WErr WalletStatusM :=
  match walletStatusLists block.hash db.monitoredUtxos with
  | .error e => .error e
  | .ok (su, uu, ss, us) =>
    .ok { syncedUnspentAmount := sumAmounts su
          syncedUnspent := su
          unsyncedUnspentAmount := sumAmountsE uu
          unsyncedUnspent := uu
          syncedSpentAmount := sumAmountsE ss
          syncedSpent := ss
          unsyncedSpentAmount := sumAmountsE us
          unsyncedSpent := us }

/-- The allocation loop (wallet_state.rs:598-604): while the
allocated amount is below the requested amount, push
`synced_unspent[ret.len()]`; indexing past the end panics (`none`). -/
def allocateLoop :
    List (WalletStatusElementM × MsMembershipProofM) → Nat → Nat →
    Option (List (UtxoM × MsMembershipProofM))
  | [], allocated, requested =>
    if requested ≤ allocated then some [] else none
  | e :: rest, allocated, requested =>
    if requested ≤ allocated then some []
    else
      (allocateLoop rest (allocated + e.1.utxo.amount) requested).map
        (fun l => (e.1.utxo, e.2) :: l)

/-- `allocate_sufficient_input_funds_from_lock`
(wallet_state.rs:578-607): read the wallet status, bail with the
insufficient-funds error when `synced_unspent_amount <
requested_amount`, else run the allocation loop. -/
def allocateSufficientInputFundsFromLock (db : WalletDb)
    (requestedAmount : Nat) (block : BlockW) :
    Except WErr (List (UtxoM × MsMembershipProofM)) :=
  match getWalletStatusFromLock db block with
  | .error e => .error e
  | .ok ws =>
    if ws.syncedUnspentAmount < requestedAmount then
      .error (.bailed "Insufficient synced amount to create transaction")
    else
      match allocateLoop ws.syncedUnspent 0 requestedAmount with
      | none => .error (.panicked "index out of bounds")
      | some l => .ok l

/-- `next_output_counter_from_lock` (wallet_state.rs:554-559): fetch
the counter and store `counter + 1` (a `u64`). -/
def nextOutputCounterFromLock (db : WalletDb) : Nat × WalletDb :=
  (db.counter, setCounter db (db.counter + 1))

/-- The `counter_as_digest` of `next_output_randomness_from_lock`
(wallet_state.rs:570-572): all-zero limbs except limb 0, which holds
`BFieldElement::new(counter)` — the `u64` counter reduced modulo the
Goldilocks prime. -/
def counterAsDigest (counter : Nat) : Digest :=
  List.set (List.replicate 5 0) 0 (counter % goldilocksP)

/-- The `(counter_as_digest, commitment_seed)` pair fed to
`Hash::hash_pair`. -/
def senderRandomnessHashInput (counter : Nat) (seedCommitment : Digest) :
    Digest × Digest :=
  (counterAsDigest counter, seedCommitment)

/-- `next_output_randomness_from_lock` (wallet_state.rs:562-576).
`seedCommitment` is `wallet_secret.get_commitment_randomness_seed()`. -/
def nextOutputRandomnessFromLock (env : WalletEnv) (seedCommitment : Digest)
    (db : WalletDb) : Digest × WalletDb :=
  let fetched := nextOutputCounterFromLock db
  let inp := senderRandomnessHashInput fetched.1 seedCommitment
  (env.hashPair inp.1 inp.2, fetched.2)

/-- The invariant of claim C7: `spent_in_block` is set only when
`confirmed_in_block` is. -/
def spentImpliesConfirmed (db : WalletDb) : Prop :=
  ∀ m ∈ db.monitoredUtxos, m.spentInBlock.isSome → m.confirmedInBlock.isSome

/-- The stronger, inductive invariant: every monitored UTXO records
its confirming block (the handler only ever creates confirmed
entries). -/
def allConfirmed (db : WalletDb) : Prop :=
  ∀ m ∈ db.monitoredUtxos, m.confirmedInBlock.isSome

instance (db : WalletDb) : Decidable (spentImpliesConfirmed db) := by
  unfold spentImpliesConfirmed
  infer_instance

instance (db : WalletDb) : Decidable (allConfirmed db) := by
  unfold allConfirmed
  infer_instance

/-- A trivial concrete wallet environment for witnesses and
counterexamples. -/
def envW : WalletEnv :=
  { hashPair := fun a b => (List.append a b : Digest)
    hashUtxo := fun u => [u.tag]
    msaAdd := fun s _ => s + 1
    msaRemove := fun s _ => s + 1
    msaHash := fun _ => zeroDigest
    msaVerify := fun _ _ _ => true
    msaProve := fun _ _ _ => { leafIndex := 0, cachedIndices := some [] }
    updMpFromAddition := fun mp _ _ _ => some mp
    updRrFromAddition := fun rr _ => some rr
    updMpFromRemove := fun mp _ => some mp
    updRrFromRemove := fun rr _ => some rr }

/-- `envW` with a pair hash that is injective in its first argument. -/
def envInj : WalletEnv := { envW with hashPair := fun a _ => a }

/-- An empty wallet database whose sync label is not the hash of any
block below. -/
def dbEmpty : WalletDb :=
  { monitoredUtxos := [], balanceUpdates := [], syncLabel := [1, 1, 1, 1, 1]
    counter := 0, persisted := false }

/-- A block carrying no transaction inputs or outputs. -/
def blockNoOwn : BlockW :=
  { hash := [2, 2, 2, 2, 2]
    header := { prevBlockDigest := [3, 3, 3, 3, 3], timestamp := 10, height := 1 }
    body :=
    { transaction := { inputs := [], outputs := [] }
      previousMutatorSetAccumulator := 0
      nextMutatorSetAccumulator := 0
      mutatorSetUpdate := { removals := [], additions := [] } } }

/-- A UTXO owned by the wallet. -/
def utxoOwn : UtxoM := { amount := 7, matchesMe := true, tag := 5 }

/-- A block whose transaction has one own output and no inputs. -/
def blockOneOut : BlockW :=
  { hash := [2, 2, 2, 2, 2]
    header := { prevBlockDigest := [3, 3, 3, 3, 3], timestamp := 10, height := 1 }
    body :=
    { transaction := { inputs := [], outputs := [(utxoOwn, zeroDigest)] }
      previousMutatorSetAccumulator := 0
      nextMutatorSetAccumulator := 0
      mutatorSetUpdate :=
        { removals := [], additions := [{ canonicalCommitment := [9, 9, 9, 9, 9] }] } } }

/-- The database produced by running the handler on `blockOneOut`
from the empty database. -/
def dbOutOneOut : WalletDb :=
  match updateWalletStateWithNewBlock envW 3 blockOneOut dbEmpty with
  | .ok d => d
  | .error _ => dbEmpty

/-- A UTXO owned by the wallet that is about to be spent. -/
def utxoSp : UtxoM := { amount := 4, matchesMe := true, tag := 8 }

/-- A concrete membership proof with cached Bloom indices. -/
def mpSp : MsMembershipProofM := { leafIndex := 0, cachedIndices := some [1, 2] }

/-- A monitored UTXO synced to the parent digest but with
`confirmed_in_block` unset. -/
def mutxoUnconfirmed : MonitoredUtxoM :=
  { utxo := utxoSp
    blockhashToMembershipProof := [([3, 3, 3, 3, 3], mpSp)]
    numberOfMpsPerUtxo := 3
    spentInBlock := none
    confirmedInBlock := none }

/-- A wallet database holding only the unconfirmed monitored UTXO. -/
def dbUnconfirmed : WalletDb :=
  { monitoredUtxos := [mutxoUnconfirmed], balanceUpdates := []
    syncLabel := [3, 3, 3, 3, 3], counter := 0, persisted := true }

/-- The removal record spending `utxoSp`. -/
def rrSp : TxKernel.RemovalRecordM := { absoluteIndices := [1, 2] }

/-- A block spending `utxoSp` and adding nothing. -/
def blockSpend : BlockW :=
  { hash := [2, 2, 2, 2, 2]
    header := { prevBlockDigest := [3, 3, 3, 3, 3], timestamp := 10, height := 1 }
    body :=
    { transaction := { inputs := [{ utxo := utxoSp }], outputs := [] }
      previousMutatorSetAccumulator := 0
      nextMutatorSetAccumulator := 0
      mutatorSetUpdate := { removals := [rrSp], additions := [] } } }

/-- The database produced by running the handler on `blockSpend` from
`dbUnconfirmed`. -/
def dbOutSpend : WalletDb :=
  match updateWalletStateWithNewBlock envW 3 blockSpend dbUnconfirmed with
  | .ok d => d
  | .error _ => dbUnconfirmed

/-- A confirmed, synced monitored UTXO worth 7. -/
def mutxoSynced : MonitoredUtxoM :=
  { utxo := utxoOwn
    blockhashToMembershipProof := [([2, 2, 2, 2, 2], mpSp)]
    numberOfMpsPerUtxo := 3
    spentInBlock := none
    confirmedInBlock := some ([2, 2, 2, 2, 2], 10) }

/-- A wallet database holding one synced unspent UTXO worth 7. -/
def dbSynced : WalletDb :=
  { monitoredUtxos := [mutxoSynced], balanceUpdates := []
    syncLabel := [2, 2, 2, 2, 2], counter := 0, persisted := true }

/-- The wallet status computed for `dbSynced` at `blockOneOut`. -/
def wsSynced : WalletStatusM :=
  match getWalletStatusFromLock dbSynced blockOneOut with
  | .ok ws => ws
  | .error _ =>
    { syncedUnspentAmount := 0, syncedUnspent := []
      unsyncedUnspentAmount := 0, unsyncedUnspent := []
      syncedSpentAmount := 0, syncedSpent := []
      unsyncedSpentAmount := 0, unsyncedSpent := [] }

/-- `dbEmpty` with the output counter at 1. -/
def dbCounterOne : WalletDb := { dbEmpty with counter := 1 }

end WalletV

namespace TxKernel

/-- Unfolding lemma for `padStep` at positive fuel. -/
theorem padStep_succ (z : List Nat) (n : Nat) (l : List (List Nat)) :
    padStep z (n + 1) l =
      if l.length &&& (l.length - 1) == 0 then l else padStep z n (l ++ [z]) := rfl

/-- The padding loop started on seven sequences appends exactly one
zero-digest encoding: 7 is not a power of two, 8 is. -/
theorem padStep_seven (z a b c d e f g : List Nat) :
    padStep z 16 [a, b, c, d, e, f, g] = [a, b, c, d, e, f, g, z] := by
  rw [show (16 : Nat) = 15 + 1 from rfl, padStep_succ, if_neg (by simp),
    show (15 : Nat) = 14 + 1 from rfl, padStep_succ,
    if_pos (by simp [show (8 &&& 7 : Nat) = 0 from by decide])]
  simp

end TxKernel

/-- Claim C1: for every mutator-set accumulator state,
`MutatorSetAccumulator::hash` returns
`H(H(aocl_peaks), H(H(swbf_inactive_peaks), H(swbf_active)))`, i.e.
the pair-hash of the bagged AOCL peaks with the pair-hash of the
bagged inactive-SWBF peaks and the hash of the active window, in that
nesting and order. -/
theorem msa_hash_is_nested_pair_hash
    (h : MutatorSetModel.MsHasher) (msa : MutatorSetModel.MutatorSetAccumulatorM) :
    MutatorSetModel.msaHash h msa = MutatorSetModel.msaHashSpec h msa := by
  rfl

/-- Claim C5: for every transaction kernel, `mast_hash` equals the
Merkle root over the encodings of exactly the seven fields (inputs,
outputs, pubscripts, fee, coinbase, timestamp, mutator_set_hash) in
that order, with the leaf list padded using the all-zero digest's
encoding up to the next power of two (7 sequences padded to 8). -/
theorem mast_hash_is_root_of_seven_padded_to_eight
    (e : TxKernel.Encoder) (k : TxKernel.TransactionKernelM) :
    TxKernel.mastHash e k =
      TxKernel.merkleRoot e.hashPair
        (List.map e.hashVarlen
          [ e.encInputs k.inputs
          , e.encOutputs k.outputs
          , e.encPubscripts k.pubscriptHashesAndInputs
          , e.encAmount k.fee
          , e.encOptAmount k.coinbase
          , e.encBfe k.timestamp
          , e.encDigest k.mutatorSetHash
          , e.encDigest zeroDigest ]) := by
  unfold TxKernel.mastHash TxKernel.mastSequences
  rw [TxKernel.padStep_seven]

/-- Claim C3 (counterexample): on a parent block whose PoW line is 0
but whose PoW family is 1 and whose difficulty is 0, the template's
`proof_of_work_line` is 1, not `P.proof_of_work_line + P.difficulty
= 0`: the source adds the parent's `proof_of_work_family`, not its
`proof_of_work_line` (mine_loop.rs:75-76). -/
theorem make_block_template_pow_line_counterexample :
    (MineLoop.makeBlockTemplate MineLoop.envT MineLoop.prevT MineLoop.txT).map
        (fun p => p.1.proofOfWorkLine) = some 1 ∧
    MineLoop.prevT.kernel.header.proofOfWorkLine +
      MineLoop.prevT.kernel.header.difficulty = 0 :=
  ⟨rfl, rfl⟩

/-- Claim C3 (amended): for every parent block P, the header produced
by `make_block_template(P, tx)` has `proof_of_work_line` (and likewise
`proof_of_work_family`) equal to `P.header.proof_of_work_family` plus
`P.header.difficulty`. -/
theorem make_block_template_pow_line_from_family
    (env : MineLoop.TemplateEnv) (prev : MineLoop.BlockM)
    (tx : MineLoop.TransactionM) (hdr : MineLoop.BlockHeaderM)
    (body : MineLoop.BlockBodyM)
    (h : MineLoop.makeBlockTemplate env prev tx = some (hdr, body)) :
    hdr.proofOfWorkLine =
      prev.kernel.header.proofOfWorkFamily + prev.kernel.header.difficulty ∧
    hdr.proofOfWorkFamily =
      prev.kernel.header.proofOfWorkFamily + prev.kernel.header.difficulty := by
  simp only [MineLoop.makeBlockTemplate] at h
  cases happ : env.applyMsUpdate prev.kernel.body.mutatorSetAccumulator
      tx.kernel.inputs tx.kernel.outputs with
  | none => rw [happ] at h; exact absurd h (by simp)
  | some msa =>
    rw [happ] at h
    simp only [Option.some.injEq, Prod.mk.injEq] at h
    obtain ⟨hh, _⟩ := h
    subst hh
    exact ⟨rfl, rfl⟩

/-- Claim C3 (witness): the amended statement evaluated on the
concrete run `envT`, `prevT`, `txT`. -/
theorem make_block_template_pow_line_from_family_witness :
    MineLoop.makeBlockTemplate MineLoop.envT MineLoop.prevT MineLoop.txT =
      some (MineLoop.hdrTout, MineLoop.bodyTout) ∧
    MineLoop.hdrTout.proofOfWorkLine =
      MineLoop.prevT.kernel.header.proofOfWorkFamily +
        MineLoop.prevT.kernel.header.difficulty :=
  ⟨rfl, (make_block_template_pow_line_from_family MineLoop.envT MineLoop.prevT
    MineLoop.txT MineLoop.hdrTout MineLoop.bodyTout rfl).1⟩

/-- Claim C10 (counterexample): the unrestricted claim fails.  The
header stores `BFieldElement::new(block_timestamp)` (mine_loop.rs:92),
i.e. the chosen timestamp reduced modulo the Goldilocks prime `p`.
For the clock reading `t = p` — a valid `u64` millisecond count
(`p < 2^64`) — and a parent timestamp of 50, the branch picks `t`
(since `t ≥ 50`), but the stored timestamp is `p % p = 0`: below the
parent's timestamp and not equal to `t`. -/
theorem make_block_template_timestamp_wrap_counterexample :
    (MineLoop.makeBlockTemplate MineLoop.envTWrap MineLoop.prevT
        MineLoop.txT).map (fun p => p.1.timestamp) = some 0 ∧
    MineLoop.prevT.kernel.header.timestamp = 50 ∧
    MineLoop.prevT.kernel.header.timestamp ≤ MineLoop.envTWrap.nowMillis ∧
    MineLoop.envTWrap.nowMillis = goldilocksP ∧ goldilocksP < 2 ^ 64 :=
  ⟨by decide, rfl, by decide, rfl, by decide⟩

/-- Claim C10 (amended): the template's timestamp is never below the
parent's, and is `P.header.timestamp + 1` when `t < P.header.timestamp`
and `t` otherwise — for clock readings `t` below the Goldilocks prime
(every realistic millisecond count is; beyond it the stored
`BFieldElement` wraps modulo the prime) and parent timestamps not at
the prime's edge. -/
theorem make_block_template_timestamp_monotone
    (env : MineLoop.TemplateEnv) (prev : MineLoop.BlockM)
    (tx : MineLoop.TransactionM) (hdr : MineLoop.BlockHeaderM)
    (body : MineLoop.BlockBodyM)
    (hnow : env.nowMillis < goldilocksP)
    (hts : prev.kernel.header.timestamp + 1 < goldilocksP)
    (h : MineLoop.makeBlockTemplate env prev tx = some (hdr, body)) :
    prev.kernel.header.timestamp ≤ hdr.timestamp ∧
    (env.nowMillis < prev.kernel.header.timestamp →
      hdr.timestamp = prev.kernel.header.timestamp + 1) ∧
    (prev.kernel.header.timestamp ≤ env.nowMillis →
      hdr.timestamp = env.nowMillis) := by
  have hp2 : goldilocksP < 2 ^ 64 := by decide
  have hnow64 : env.nowMillis < 2 ^ 64 := lt_trans hnow hp2
  have htrunc : env.nowMillis % 2 ^ 64 = env.nowMillis := Nat.mod_eq_of_lt hnow64
  simp only [MineLoop.makeBlockTemplate] at h
  cases happ : env.applyMsUpdate prev.kernel.body.mutatorSetAccumulator
      tx.kernel.inputs tx.kernel.outputs with
  | none => rw [happ] at h; exact absurd h (by simp)
  | some msa =>
    rw [happ] at h
    simp only [Option.some.injEq, Prod.mk.injEq] at h
    obtain ⟨hh, _⟩ := h
    subst hh
    simp only [htrunc]
    by_cases hlt : env.nowMillis < prev.kernel.header.timestamp
    · rw [if_pos hlt]
      have : (prev.kernel.header.timestamp + 1) % goldilocksP =
          prev.kernel.header.timestamp + 1 := Nat.mod_eq_of_lt hts
      refine ⟨?_, fun _ => this, fun hle => absurd hlt (not_lt.mpr hle)⟩
      rw [this]
      exact Nat.le_succ _
    · rw [if_neg hlt]
      have : env.nowMillis % goldilocksP = env.nowMillis := Nat.mod_eq_of_lt hnow
      refine ⟨?_, fun hc => absurd hc hlt, fun _ => this⟩
      rw [this]
      exact not_lt.mp hlt

/-- Claim C10 (witness): the timestamp statement evaluated on the
concrete run `envT`, `prevT`, `txT` (clock reading 100, parent
timestamp 50). -/
theorem make_block_template_timestamp_monotone_witness :
    MineLoop.envT.nowMillis < goldilocksP ∧
    MineLoop.prevT.kernel.header.timestamp + 1 < goldilocksP ∧
    (MineLoop.prevT.kernel.header.timestamp ≤ MineLoop.hdrTout.timestamp ∧
      (MineLoop.envT.nowMillis < MineLoop.prevT.kernel.header.timestamp →
        MineLoop.hdrTout.timestamp = MineLoop.prevT.kernel.header.timestamp + 1) ∧
      (MineLoop.prevT.kernel.header.timestamp ≤ MineLoop.envT.nowMillis →
        MineLoop.hdrTout.timestamp = MineLoop.envT.nowMillis)) :=
  ⟨by decide, by decide,
    make_block_template_timestamp_monotone MineLoop.envT MineLoop.prevT
      MineLoop.txT MineLoop.hdrTout MineLoop.bodyTout (by decide) (by decide) rfl⟩

/-- Claim C4 (counterexample): with every header hashing exactly to
the threshold value, the digest satisfies `H(header) ≤ threshold`,
yet the nonce search does not exit: the loop condition is
`Hash::hash(&header) >= threshold` (mine_loop.rs:126), so a digest
equal to the threshold keeps the search running (here: 5 iterations
of fuel spent, no block accepted). -/
theorem mine_block_nonexit_at_threshold_counterexample :
    MineLoop.envC4.hashHeader MineLoop.hdrC4 ≤ MineLoop.envC4.threshold ∧
    MineLoop.mineBlock MineLoop.envC4 MineLoop.hdrC4 5 = none :=
  ⟨by decide, rfl⟩

/-- Claim C4 (amended): the nonce search exits to send exactly when
the header digest is strictly below the threshold: every header it
delivers satisfies `H(header) < threshold`, and whenever the current
header satisfies `H(header) < threshold` (and the channel is not
cancelled) the search accepts it immediately. -/
theorem mine_block_exits_iff_digest_below_threshold
    (env : MineLoop.MineEnv) :
    (∀ fuel t counter hdr hdr',
      MineLoop.mineBlockLoop env fuel t counter hdr =
        some (MineLoop.MineOutcome.delivered hdr') →
      env.hashHeader hdr' < env.threshold) ∧
    (∀ fuel t counter hdr,
      env.hashHeader hdr < env.threshold → env.canceled t = false →
      MineLoop.mineBlockLoop env (fuel + 1) t counter hdr =
        some (MineLoop.MineOutcome.delivered hdr)) := by
  constructor
  · intro fuel
    induction fuel with
    | zero => intro t counter hdr hdr' h; exact absurd h (by simp [MineLoop.mineBlockLoop])
    | succ n ih =>
      intro t counter hdr hdr' h
      rw [MineLoop.mineBlockLoop] at h
      by_cases hge : env.threshold ≤ env.hashHeader hdr
      · rw [if_pos hge] at h
        by_cases hc : env.canceled t
        · simp [hc] at h
        · rw [if_neg (by simp [hc])] at h
          by_cases hs : (counter % 100 == 0 && env.syncing t) = true
          · simp [hs] at h
          · rw [if_neg (by simp at hs ⊢; intro hc100; exact hs hc100)] at h
            exact ih (t + 1) (counter + 1) _ hdr' h
      · rw [if_neg hge] at h
        by_cases hc : env.canceled t
        · simp [hc] at h
        · simp only [hc, if_false, Bool.false_eq_true, Option.some.injEq] at h
          cases h
          exact lt_of_not_le hge
  · intro fuel t counter hdr hlt hc
    rw [MineLoop.mineBlockLoop, if_neg (not_le.mpr hlt), hc]
    rfl

/-- Claim C4 (witness): the amended statement evaluated on the
concrete environment `envBelow` (digest rank 3, threshold 5): the
first header is accepted and its digest is strictly below. -/
theorem mine_block_exits_iff_digest_below_threshold_witness :
    MineLoop.mineBlockLoop MineLoop.envBelow 1 0 0 MineLoop.hdrC4 =
      some (MineLoop.MineOutcome.delivered MineLoop.hdrC4) ∧
    MineLoop.envBelow.hashHeader MineLoop.hdrC4 < MineLoop.envBelow.threshold := by
  have h := (mine_block_exits_iff_digest_below_threshold MineLoop.envBelow).2
    0 0 0 MineLoop.hdrC4 (by decide) rfl
  exact ⟨h, (mine_block_exits_iff_digest_below_threshold MineLoop.envBelow).1
    1 0 0 MineLoop.hdrC4 MineLoop.hdrC4 h⟩

/-- Claim C9: once the result channel's receiver has been dropped
(`canceled` holds from step `t0` on and, being a drop, is monotone),
the mining worker never delivers a block: at every cancellation
checkpoint it returns without sending, and a send attempted after the
loop fails because the receiver is gone. -/
theorem mine_block_no_delivery_after_cancel
    (env : MineLoop.MineEnv)
    (hmono : ∀ i j, i ≤ j → env.canceled i = true → env.canceled j = true)
    (t0 : Nat) (hc : env.canceled t0 = true) :
    ∀ fuel t counter hdr hdr', t0 ≤ t →
      MineLoop.mineBlockLoop env fuel t counter hdr ≠
        some (MineLoop.MineOutcome.delivered hdr') := by
  intro fuel
  induction fuel with
  | zero => intro t counter hdr hdr' ht h; exact absurd h (by simp [MineLoop.mineBlockLoop])
  | succ n ih =>
    intro t counter hdr hdr' ht h
    have hct : env.canceled t = true := hmono t0 t ht hc
    rw [MineLoop.mineBlockLoop] at h
    by_cases hge : env.threshold ≤ env.hashHeader hdr
    · rw [if_pos hge, if_pos hct] at h
      exact absurd h (by simp)
    · rw [if_neg hge, hct] at h
      exact absurd h (by simp)

/-- Claim C9 (witness): with the receiver dropped from step 0 on, a
concrete three-iteration run delivers nothing. -/
theorem mine_block_no_delivery_after_cancel_witness :
    MineLoop.envCancel.canceled 0 = true ∧
    MineLoop.mineBlockLoop MineLoop.envCancel 3 0 0 MineLoop.hdrC4 ≠
      some (MineLoop.MineOutcome.delivered MineLoop.hdrC4) :=
  ⟨rfl, mine_block_no_delivery_after_cancel MineLoop.envCancel
    (fun _ _ _ _ => rfl) 0 rfl 3 0 0 MineLoop.hdrC4 MineLoop.hdrC4 (Nat.le_refl 0)⟩

/-- Claim C2 (counterexample): on a block with no own inputs or
outputs and a wallet monitoring nothing, the handler returns `Ok`
through the early return (wallet_state.rs:142-147) without touching
`sync_label` or persisting: the sync label stays distinct from the
block hash. -/
theorem update_wallet_early_return_counterexample :
    WalletV.updateWalletStateWithNewBlock WalletV.envW 3 WalletV.blockNoOwn
      WalletV.dbEmpty = .ok WalletV.dbEmpty ∧
    WalletV.dbEmpty.syncLabel ≠ WalletV.blockNoOwn.hash ∧
    WalletV.dbEmpty.persisted = false :=
  ⟨rfl, by decide, rfl⟩

/-- Claim C2 (amended): whenever `update_wallet_state_with_new_block(B)`
returns successfully and the early-return case does not apply (the
block has an own input or own output, or the wallet monitors at least
one UTXO), the wallet database's `sync_label` equals `B`'s hash and
the database has been persisted; in the early-return case the
database is returned unchanged. -/
theorem update_wallet_sets_sync_label_and_persists
    (env : WalletV.WalletEnv) (nMps : Nat) (block : WalletV.BlockW)
    (db db' : WalletV.WalletDb)
    (hok : WalletV.updateWalletStateWithNewBlock env nMps block db = .ok db')
    (hne : ((WalletV.getOwnInputUtxos block.body.transaction).isEmpty &&
            (WalletV.getOwnOutputUtxosAndComrands block.body.transaction).isEmpty &&
            db.monitoredUtxos.isEmpty) = false) :
    db'.syncLabel = block.hash ∧ db'.persisted = true := by
  simp only [WalletV.updateWalletStateWithNewBlock, hne, Bool.false_eq_true,
    if_false] at hok
  cases hcore : WalletV.updateWalletCore env nMps block db with
  | error e => rw [hcore] at hok; exact absurd hok (by simp)
  | ok dbF =>
    rw [hcore] at hok
    simp only [Except.ok.injEq] at hok
    subst hok
    exact ⟨rfl, rfl⟩

/-- Claim C2 (witness): the amended statement evaluated on a concrete
successful run (one own output, empty wallet). -/
theorem update_wallet_sets_sync_label_and_persists_witness :
    WalletV.updateWalletStateWithNewBlock WalletV.envW 3 WalletV.blockOneOut
      WalletV.dbEmpty = .ok WalletV.dbOutOneOut ∧
    (WalletV.dbOutOneOut.syncLabel = WalletV.blockOneOut.hash ∧
      WalletV.dbOutOneOut.persisted = true) :=
  ⟨rfl, update_wallet_sets_sync_label_and_persists WalletV.envW 3
    WalletV.blockOneOut WalletV.dbEmpty WalletV.dbOutOneOut rfl (by decide)⟩

/-- `markSpentAt` only sets `spent_in_block`, so it preserves the
all-confirmed invariant. -/
theorem markSpentAt_preserves_allConfirmed (block : WalletV.BlockW)
    (db : WalletV.WalletDb) (j : Nat)
    (hconf : WalletV.allConfirmed db) :
    WalletV.allConfirmed (WalletV.markSpentAt block db j) := by
  unfold WalletV.markSpentAt
  cases hg : db.monitoredUtxos.get? j with
  | none => exact hconf
  | some m =>
    intro m' hm'
    rcases List.mem_or_eq_of_mem_set hm' with h | h
    · exact hconf m' h
    · subst h
      exact hconf m (List.get?_mem hg)

/-- `disambiguate` marks via `markSpentAt`, so it preserves the
all-confirmed invariant. -/
theorem disambiguate_preserves_allConfirmed (block : WalletV.BlockW)
    (rr : TxKernel.RemovalRecordM) (idxs : List Nat) :
    ∀ (db out : WalletV.WalletDb),
      WalletV.disambiguate block rr idxs db = .ok out →
      WalletV.allConfirmed db → WalletV.allConfirmed out := by
  induction idxs with
  | nil =>
    intro db out hok hconf
    simp only [WalletV.disambiguate, Except.ok.injEq] at hok
    subst hok
    exact hconf
  | cons j rest ih =>
    intro db out hok hconf
    simp only [WalletV.disambiguate] at hok
    split at hok
    · exact absurd hok (by simp)
    · split at hok
      · exact absurd hok (by simp)
      · split at hok
        · exact absurd hok (by simp)
        · split at hok
          · simp only [Except.ok.injEq] at hok
            subst hok
            exact markSpentAt_preserves_allConfirmed block db j hconf
          · exact ih db out hok hconf

/-- `markOwnSpent` preserves the all-confirmed invariant. -/
theorem markOwnSpent_preserves_allConfirmed (env : WalletV.WalletEnv)
    (block : WalletV.BlockW) (rr : TxKernel.RemovalRecordM)
    (inputUtxo : WalletV.UtxoM) (db out : WalletV.WalletDb)
    (hok : WalletV.markOwnSpent env block rr inputUtxo db = .ok out)
    (hconf : WalletV.allConfirmed db) :
    WalletV.allConfirmed out := by
  simp only [WalletV.markOwnSpent] at hok
  split at hok
  · split at hok
    · exact absurd hok (by simp)
    · simp only [Except.ok.injEq] at hok
      subst hok
      exact markSpentAt_preserves_allConfirmed block db _ hconf
    · exact disambiguate_preserves_allConfirmed block rr _ db out hok hconf
  · simp only [Except.ok.injEq] at hok
    subst hok
    exact hconf

/-- The addition loop only pushes monitored UTXOs whose
`confirmed_in_block` is set, so it preserves the all-confirmed
invariant. -/
theorem additionLoop_preserves_allConfirmed (env : WalletV.WalletEnv)
    (nMps : Nat) (block : WalletV.BlockW)
    (pairs : List (TxKernel.AdditionRecordM × (WalletV.UtxoM × Digest))) :
    ∀ (mpMap : WalletV.MpMap) (rrs : List TxKernel.RemovalRecordM)
      (msa : WalletV.Msa) (db : WalletV.WalletDb)
      (out : WalletV.MpMap × List TxKernel.RemovalRecordM × WalletV.Msa ×
        WalletV.WalletDb),
      WalletV.additionLoop env nMps block pairs mpMap rrs msa db = .ok out →
      WalletV.allConfirmed db → WalletV.allConfirmed out.2.2.2 := by
  induction pairs with
  | nil =>
    intro mpMap rrs msa db out hok hconf
    simp only [WalletV.additionLoop, Except.ok.injEq] at hok
    subst hok
    exact hconf
  | cons p rest ih =>
    intro mpMap rrs msa db out hok hconf
    obtain ⟨ar, utxo, comrand⟩ := p
    simp only [WalletV.additionLoop] at hok
    split at hok
    · exact absurd hok (by simp)
    · split at hok
      · exact absurd hok (by simp)
      · split at hok
        · refine ih _ _ _ _ _ hok ?_
          intro m hm
          rcases List.mem_append.mp hm with h | h
          · exact hconf m h
          · rcases List.mem_singleton.mp h with rfl
            rfl
        · exact ih _ _ _ _ _ hok hconf

/-- The removal loop only marks UTXOs spent, so it preserves the
all-confirmed invariant. -/
theorem removalLoop_preserves_allConfirmed (env : WalletV.WalletEnv)
    (block : WalletV.BlockW) (fuel : Nat) :
    ∀ (i : Nat) (rrs : List TxKernel.RemovalRecordM)
      (mpMap : WalletV.MpMap) (msa : WalletV.Msa) (db : WalletV.WalletDb)
      (out : WalletV.MpMap × WalletV.Msa × WalletV.WalletDb),
      WalletV.removalLoop env block fuel i rrs mpMap msa db = .ok out →
      WalletV.allConfirmed db → WalletV.allConfirmed out.2.2 := by
  induction fuel with
  | zero =>
    intro i rrs mpMap msa db out hok hconf
    cases rrs with
    | nil =>
      simp only [WalletV.removalLoop, Except.ok.injEq] at hok
      subst hok
      exact hconf
    | cons rr rest => exact absurd hok (by simp [WalletV.removalLoop])
  | succ n ih =>
    intro i rrs mpMap msa db out hok hconf
    cases rrs with
    | nil =>
      simp only [WalletV.removalLoop, Except.ok.injEq] at hok
      subst hok
      exact hconf
    | cons rr rest =>
      simp only [WalletV.removalLoop] at hok
      split at hok
      · exact absurd hok (by simp)
      · split at hok
        · exact absurd hok (by simp)
        · split at hok
          · exact absurd hok (by simp)
          · split at hok
            · exact absurd hok (by simp)
            · rename_i db2 hmark
              exact ih _ _ _ _ _ _ hok
                (markOwnSpent_preserves_allConfirmed env block rr _ db db2 hmark hconf)

/-- The write-back loop only touches the proof history, so it
preserves the all-confirmed invariant. -/
theorem writeBackLoop_preserves_allConfirmed (env : WalletV.WalletEnv)
    (block : WalletV.BlockW) (msa : WalletV.Msa) (mpMap : WalletV.MpMap) :
    ∀ (db out : WalletV.WalletDb),
      WalletV.writeBackLoop env block msa mpMap db = .ok out →
      WalletV.allConfirmed db → WalletV.allConfirmed out := by
  induction mpMap with
  | nil =>
    intro db out hok hconf
    simp only [WalletV.writeBackLoop, Except.ok.injEq] at hok
    subst hok
    exact hconf
  | cons kv rest ih =>
    intro db out hok hconf
    obtain ⟨key, mp, idx⟩ := kv
    simp only [WalletV.writeBackLoop] at hok
    split at hok
    · exact absurd hok (by simp)
    · rename_i m hg
      split at hok
      · refine ih _ _ hok ?_
        intro m' hm'
        rcases List.mem_or_eq_of_mem_set hm' with h | h
        · exact hconf m' h
        · subst h
          exact hconf m (List.get?_mem hg)
      · exact absurd hok (by simp)

/-- The whole core preserves the all-confirmed invariant. -/
theorem updateWalletCore_preserves_allConfirmed (env : WalletV.WalletEnv)
    (nMps : Nat) (block : WalletV.BlockW) (db db' : WalletV.WalletDb)
    (hok : WalletV.updateWalletCore env nMps block db = .ok db')
    (hconf : WalletV.allConfirmed db) :
    WalletV.allConfirmed db' := by
  have hconf1 : WalletV.allConfirmed (WalletV.recordBalanceUpdates block db) :=
    hconf
  simp only [WalletV.updateWalletCore] at hok
  split at hok
  next => exact absurd hok (by simp)
  next mpMap hcol =>
    split at hok
    next => exact absurd hok (by simp)
    next zipped hz =>
      split at hok
      next => exact absurd hok (by simp)
      next mpMap2 rrs msa db2 hadd =>
        split at hok
        next => exact absurd hok (by simp)
        next u hsan =>
          split at hok
          next => exact absurd hok (by simp)
          next mpMap3 msa2 db3 hrem =>
            split at hok
            next => exact absurd hok (by simp)
            next u2 hfin =>
              have h2 := additionLoop_preserves_allConfirmed env nMps block
                zipped mpMap _ _ _ _ hadd hconf1
              have h3 := removalLoop_preserves_allConfirmed env block
                rrs.length 0 rrs mpMap2 msa db2 _ hrem h2
              exact writeBackLoop_preserves_allConfirmed env block msa2 mpMap3
                db3 db' hok h3

/-- Claim C7 (counterexample): preservation fails for the literal
invariant alone.  A wallet whose single monitored UTXO is synced but
unconfirmed (`confirmed_in_block = None`) satisfies the invariant;
applying a block that spends that UTXO succeeds and sets
`spent_in_block` (wallet_state.rs:350-353) without touching
`confirmed_in_block`, leaving an entry that violates the invariant. -/
theorem update_wallet_spent_confirmed_counterexample :
    WalletV.spentImpliesConfirmed WalletV.dbUnconfirmed ∧
    WalletV.updateWalletStateWithNewBlock WalletV.envW 3 WalletV.blockSpend
      WalletV.dbUnconfirmed = .ok WalletV.dbOutSpend ∧
    ¬ WalletV.spentImpliesConfirmed WalletV.dbOutSpend :=
  ⟨by decide, rfl, by decide⟩

/-- Claim C7 (amended): the inductive invariant is the stronger
`confirmed_in_block` is set on every monitored UTXO — which the code
establishes, since entries are only ever created with
`confirmed_in_block` set to the creating block (wallet_state.rs:
272-277).  Under it, every successful application of
`update_wallet_state_with_new_block` again yields a database in which
every monitored UTXO is confirmed, and hence one in which
`spent_in_block` is set only if `confirmed_in_block` is. -/
theorem update_wallet_preserves_confirmed_before_spent
    (env : WalletV.WalletEnv) (nMps : Nat) (block : WalletV.BlockW)
    (db db' : WalletV.WalletDb)
    (hconf : WalletV.allConfirmed db)
    (hok : WalletV.updateWalletStateWithNewBlock env nMps block db = .ok db') :
    WalletV.allConfirmed db' ∧ WalletV.spentImpliesConfirmed db' := by
  simp only [WalletV.updateWalletStateWithNewBlock] at hok
  split at hok
  · simp only [Except.ok.injEq] at hok
    subst hok
    exact ⟨hconf, fun m hm _ => hconf m hm⟩
  · split at hok
    next => exact absurd hok (by simp)
    next dbF hcore =>
      simp only [Except.ok.injEq] at hok
      subst hok
      have h := updateWalletCore_preserves_allConfirmed env nMps block db dbF
        hcore hconf
      exact ⟨h, fun m hm _ => h m hm⟩

/-- Claim C7 (witness): the amended statement evaluated on the
concrete run of `blockOneOut` from the empty (hence all-confirmed)
database. -/
theorem update_wallet_preserves_confirmed_before_spent_witness :
    WalletV.allConfirmed WalletV.dbEmpty ∧
    (WalletV.allConfirmed WalletV.dbOutOneOut ∧
      WalletV.spentImpliesConfirmed WalletV.dbOutOneOut) :=
  ⟨by decide, update_wallet_preserves_confirmed_before_spent WalletV.envW 3
    WalletV.blockOneOut WalletV.dbEmpty WalletV.dbOutOneOut (by decide) rfl⟩

/-- `get_wallet_status_from_lock` sets `synced_unspent_amount` to the
sum of the amounts of its `synced_unspent` elements. -/
theorem wallet_status_amount_eq_sum (db : WalletV.WalletDb)
    (block : WalletV.BlockW) (ws : WalletV.WalletStatusM)
    (hws : WalletV.getWalletStatusFromLock db block = .ok ws) :
    ws.syncedUnspentAmount = WalletV.sumAmounts ws.syncedUnspent := by
  simp only [WalletV.getWalletStatusFromLock] at hws
  split at hws
  next => exact absurd hws (by simp)
  next su uu ss us heq =>
    simp only [Except.ok.injEq] at hws
    subst hws
    rfl

/-- `sumAmounts` unfolds over a cons. -/
theorem sumAmounts_cons
    (e : WalletV.WalletStatusElementM × WalletV.MsMembershipProofM)
    (rest : List (WalletV.WalletStatusElementM × WalletV.MsMembershipProofM)) :
    WalletV.sumAmounts (e :: rest) =
      e.1.utxo.amount + WalletV.sumAmounts rest := by
  simp [WalletV.sumAmounts]

/-- When the elements remaining can cover the requested amount, the
allocation loop succeeds and returns the shortest list of leading
elements whose accumulated amount reaches the request. -/
theorem allocateLoop_spec
    (elems : List (WalletV.WalletStatusElementM × WalletV.MsMembershipProofM)) :
    ∀ allocated requested : Nat,
      requested ≤ allocated + WalletV.sumAmounts elems →
      ∃ l, WalletV.allocateLoop elems allocated requested = some l ∧
        l = (elems.take l.length).map (fun e => (e.1.utxo, e.2)) ∧
        requested ≤ allocated + (l.map (fun p => p.1.amount)).sum := by
  induction elems with
  | nil =>
    intro allocated requested h
    simp only [WalletV.sumAmounts, List.map_nil, List.sum_nil, Nat.add_zero] at h
    refine ⟨[], ?_, rfl, by simpa using h⟩
    simp [WalletV.allocateLoop, h]
  | cons e rest ih =>
    intro allocated requested h
    by_cases hle : requested ≤ allocated
    · refine ⟨[], ?_, rfl, by simpa using hle⟩
      simp [WalletV.allocateLoop, hle]
    · have h' : requested ≤ (allocated + e.1.utxo.amount) + WalletV.sumAmounts rest := by
        rw [sumAmounts_cons] at h
        omega
      obtain ⟨l, hl, hshape, hsum⟩ := ih (allocated + e.1.utxo.amount) requested h'
      refine ⟨(e.1.utxo, e.2) :: l, ?_, ?_, ?_⟩
      · simp [WalletV.allocateLoop, hle, hl]
      · simp only [List.length_cons, List.take_succ_cons, List.map_cons]
        exact congrArg _ hshape
      · simp only [List.map_cons, List.sum_cons]
        omega

/-- Claim C6: `allocate_sufficient_input_funds` fails with the
insufficient-funds error exactly when the wallet status's
`synced_unspent_amount` is below the requested amount; otherwise it
returns the UTXOs (with membership proofs) of a leading segment of
`synced_unspent`, in insertion order, whose accumulated amount
reaches the requested amount. -/
theorem allocate_sufficient_input_funds_spec (db : WalletV.WalletDb)
    (req : Nat) (block : WalletV.BlockW) (ws : WalletV.WalletStatusM)
    (hws : WalletV.getWalletStatusFromLock db block = .ok ws) :
    (ws.syncedUnspentAmount < req →
      WalletV.allocateSufficientInputFundsFromLock db req block =
        .error (.bailed "Insufficient synced amount to create transaction")) ∧
    (req ≤ ws.syncedUnspentAmount →
      ∃ l, WalletV.allocateSufficientInputFundsFromLock db req block = .ok l ∧
        l = (ws.syncedUnspent.take l.length).map (fun e => (e.1.utxo, e.2)) ∧
        req ≤ (l.map (fun p => p.1.amount)).sum) := by
  have hsum := wallet_status_amount_eq_sum db block ws hws
  constructor
  · intro hlt
    simp only [WalletV.allocateSufficientInputFundsFromLock, hws]
    rw [if_pos hlt]
  · intro hge
    have hge' : req ≤ 0 + WalletV.sumAmounts ws.syncedUnspent := by
      rw [hsum] at hge
      simpa using hge
    obtain ⟨l, hl, hshape, hs⟩ := allocateLoop_spec ws.syncedUnspent 0 req hge'
    refine ⟨l, ?_, hshape, by simpa using hs⟩
    simp only [WalletV.allocateSufficientInputFundsFromLock, hws]
    rw [if_neg (not_lt.mpr hge), hl]

/-- Claim C6 (witness): the allocation statement evaluated on a
wallet holding one synced unspent UTXO worth 7 with a request of 3. -/
theorem allocate_sufficient_input_funds_spec_witness :
    WalletV.getWalletStatusFromLock WalletV.dbSynced WalletV.blockOneOut =
      .ok WalletV.wsSynced ∧
    ((WalletV.wsSynced.syncedUnspentAmount < 3 →
      WalletV.allocateSufficientInputFundsFromLock WalletV.dbSynced 3
          WalletV.blockOneOut =
        .error (.bailed "Insufficient synced amount to create transaction")) ∧
    (3 ≤ WalletV.wsSynced.syncedUnspentAmount →
      ∃ l, WalletV.allocateSufficientInputFundsFromLock WalletV.dbSynced 3
          WalletV.blockOneOut = .ok l ∧
        l = (WalletV.wsSynced.syncedUnspent.take l.length).map
          (fun e => (e.1.utxo, e.2)) ∧
        3 ≤ (l.map (fun p => p.1.amount)).sum)) :=
  ⟨rfl, allocate_sufficient_input_funds_spec WalletV.dbSynced 3
    WalletV.blockOneOut WalletV.wsSynced rfl⟩

/-- `counter_as_digest` written out: the reduced counter followed by
four zero limbs. -/
theorem counterAsDigest_eq (c : Nat) :
    WalletV.counterAsDigest c = c % goldilocksP :: List.replicate 4 0 := rfl

/-- Claim C8 (counterexample): sender-randomness inputs are not
injective over all distinct `u64` counter values.  `BFieldElement::new`
reduces the counter modulo the Goldilocks prime `p < 2^64`, so the
distinct `u64` counters `0` and `p` produce identical hash inputs and
hence identical sender-randomness digests. -/
theorem sender_randomness_counter_collision :
    (0 : Nat) ≠ goldilocksP ∧ goldilocksP < 2 ^ 64 ∧
    WalletV.senderRandomnessHashInput 0 zeroDigest =
      WalletV.senderRandomnessHashInput goldilocksP zeroDigest ∧
    (WalletV.nextOutputRandomnessFromLock WalletV.envW zeroDigest
        WalletV.dbEmpty).1 =
      (WalletV.nextOutputRandomnessFromLock WalletV.envW zeroDigest
        { WalletV.dbEmpty with counter := goldilocksP }).1 := by
  refine ⟨by decide, by decide, ?_, ?_⟩
  · simp [WalletV.senderRandomnessHashInput, WalletV.counterAsDigest,
      Nat.mod_self]
  · simp [WalletV.nextOutputRandomnessFromLock, WalletV.nextOutputCounterFromLock,
      WalletV.senderRandomnessHashInput, WalletV.counterAsDigest, Nat.mod_self,
      WalletV.dbEmpty]

/-- Claim C8 (amended): for counters below the Goldilocks prime — as
every counter reached by incrementing from zero in practice is —
sender randomness is injective in the counter: distinct counters give
distinct hash inputs, and, for a pair hash injective in its first
argument, distinct sender-randomness digests. -/
theorem sender_randomness_injective_in_counter_below_p
    (env : WalletV.WalletEnv) (seed : Digest) (db1 db2 : WalletV.WalletDb)
    (h1 : db1.counter < goldilocksP) (h2 : db2.counter < goldilocksP)
    (hne : db1.counter ≠ db2.counter) :
    WalletV.senderRandomnessHashInput db1.counter seed ≠
      WalletV.senderRandomnessHashInput db2.counter seed ∧
    ((∀ a a' b, env.hashPair a b = env.hashPair a' b → a = a') →
      (WalletV.nextOutputRandomnessFromLock env seed db1).1 ≠
        (WalletV.nextOutputRandomnessFromLock env seed db2).1) := by
  have hm1 : db1.counter % goldilocksP = db1.counter := Nat.mod_eq_of_lt h1
  have hm2 : db2.counter % goldilocksP = db2.counter := Nat.mod_eq_of_lt h2
  have hinp : WalletV.senderRandomnessHashInput db1.counter seed ≠
      WalletV.senderRandomnessHashInput db2.counter seed := by
    intro heq
    simp only [WalletV.senderRandomnessHashInput, Prod.mk.injEq,
      counterAsDigest_eq, hm1, hm2] at heq
    exact hne (List.cons_eq_cons.mp heq.1).1
  refine ⟨hinp, fun hinj heq => ?_⟩
  have : WalletV.counterAsDigest db1.counter = WalletV.counterAsDigest db2.counter :=
    hinj _ _ seed heq
  apply hinp
  simp only [WalletV.senderRandomnessHashInput, this]

/-- Claim C8 (witness): the amended statement at counters 0 and 1
with a pair hash that keeps its first argument. -/
theorem sender_randomness_injective_in_counter_below_p_witness :
    WalletV.dbEmpty.counter < goldilocksP ∧
    WalletV.dbCounterOne.counter < goldilocksP ∧
    WalletV.dbEmpty.counter ≠ WalletV.dbCounterOne.counter ∧
    (WalletV.nextOutputRandomnessFromLock WalletV.envInj zeroDigest
        WalletV.dbEmpty).1 ≠
      (WalletV.nextOutputRandomnessFromLock WalletV.envInj zeroDigest
        WalletV.dbCounterOne).1 :=
  ⟨by decide, by decide, by decide,
    (sender_randomness_injective_in_counter_below_p WalletV.envInj zeroDigest
      WalletV.dbEmpty WalletV.dbCounterOne (by decide) (by decide) (by decide)).2
      (fun a a' b h => h)⟩
